import Mathlib

/-
Verification of the eval-hub model registry (src/eval_hub/services/model_service.py)
and of the backend-executor construction / progress contract, against the
natural-language specification.  The registry is embedded shallowly: the two
dictionaries of the Python ModelService become association lists, the wall
clock becomes an explicit natural-number parameter, the process environment
becomes an explicit association list of variable names to values, and each
Python method becomes a pure Lean function returning its result together with
the updated service state.  Exceptions (ValueError) become Except.error.
-/

namespace EvalHub

/-- Modelled from the spec: enumerated model kinds for registry models.  The
module defining the enumeration (eval_hub/models/model.py) is not among the
provided sources, only the service consuming it; the spec names
openai-compatible as the default kind.  A second representative kind is
included so that kind parsing and the documented fallback are non-degenerate. -/
inductive ModelType where
  | openai_compatible
  | huggingface
deriving DecidableEq

/-- Parsing of a model-kind string; an unrecognized string yields none, which
the discovery scan turns into the default kind with a warning. -/
def ModelType.ofString : String → Option ModelType
  | "openai-compatible" => some ModelType.openai_compatible
  | "huggingface" => some ModelType.huggingface
  | _ => none

/-- Modelled from the spec: lifecycle status of a model (active/inactive). -/
inductive ModelStatus where
  | active
  | inactive
deriving DecidableEq

/-- Modelled from the spec: capability flags of a model (free-form; the
defining module is not among the provided sources). -/
structure ModelCapabilities where
  flags : List String := []
deriving DecidableEq

/-- Modelled from the spec: free-form configuration bag of a model. -/
structure ModelConfig where
  bag : List (String × String) := []
deriving DecidableEq

/-- The Model record of eval_hub/models/model.py as used by the service:
identifier, display name, description, kind, base URL, credential flag,
optional path, capabilities, config, status, tags and the two timestamps
(embedded as naturals). -/
structure Model where
  model_id : String
  model_name : String
  description : String
  model_type : ModelType
  base_url : String
  api_key_required : Bool
  model_path : Option String
  capabilities : ModelCapabilities
  config : ModelConfig
  status : ModelStatus
  tags : List String
  created_at : Nat
  updated_at : Nat
deriving DecidableEq

/-- Registration request consumed by ModelService.register_model. -/
structure ModelRegistrationRequest where
  model_id : String
  model_name : String
  description : String
  model_type : ModelType
  base_url : String
  api_key_required : Bool
  model_path : Option String
  capabilities : Option ModelCapabilities
  config : Option ModelConfig
  status : ModelStatus
  tags : List String
deriving DecidableEq

/-- Partial-update request consumed by ModelService.update_model; a none field
means the field is absent from the request and must be left untouched. -/
structure ModelUpdateRequest where
  model_name : Option String := none
  description : Option String := none
  model_type : Option ModelType := none
  base_url : Option String := none
  api_key_required : Option Bool := none
  model_path : Option String := none
  capabilities : Option ModelCapabilities := none
  config : Option ModelConfig := none
  status : Option ModelStatus := none
  tags : Option (List String) := none
deriving DecidableEq

/-- Lightweight summary returned by ModelService.get_all_models. -/
structure ModelSummary where
  model_id : String
  model_name : String
  description : String
  model_type : ModelType
  base_url : String
  status : ModelStatus
  tags : List String
  created_at : Nat
deriving DecidableEq

/-- Response shape of ModelService.get_all_models. -/
structure ListModelsResponse where
  models : List ModelSummary
  total_models : Nat
  runtime_models : List ModelSummary
deriving DecidableEq

/-! Character-list string helpers mirroring the Python str methods used by the
service.  They are written over String.data so that every operation reduces in
the kernel. -/

/-- Python s.startswith(p). -/
def strStartsWith (s p : String) : Bool := p.data.isPrefixOf s.data

/-- Python s.endswith(p). -/
def strEndsWith (s p : String) : Bool := p.data.isSuffixOf s.data

/-- Drop the first n characters (Python s[n:]). -/
def strDrop (s : String) (n : Nat) : String := ⟨s.data.drop n⟩

/-- Drop the last n characters (Python s[:-n]). -/
def strDropRight (s : String) (n : Nat) : String := ⟨s.data.take (s.data.length - n)⟩

/-- Python s.lower(). -/
def strToLower (s : String) : String := ⟨s.data.map Char.toLower⟩

/-- Python s.upper(). -/
def strToUpper (s : String) : String := ⟨s.data.map Char.toUpper⟩

/-- Python s.strip(): remove leading and trailing whitespace. -/
def strTrim (s : String) : String :=
  ⟨((s.data.dropWhile Char.isWhitespace).reverse.dropWhile Char.isWhitespace).reverse⟩

/-- Number of characters of s (Python len(s)). -/
def strLen (s : String) : Nat := s.data.length

/-! Association-list maps standing for the Python dictionaries.  Lookup is by
string equality; insertion replaces the binding in place when the key is
already present and appends otherwise, matching dict assignment. -/

/-- Dictionary lookup d.get(k) / k in d. -/
def lookupKey {α : Type} (k : String) : List (String × α) → Option α
  | [] => none
  | p :: rest => if p.1 = k then some p.2 else lookupKey k rest

/-- Dictionary assignment d[k] = v. -/
def insertReplace {α : Type} (k : String) (v : α) : List (String × α) → List (String × α)
  | [] => [(k, v)]
  | p :: rest => if p.1 = k then (k, v) :: rest else p :: insertReplace k v rest

/-- Dictionary deletion del d[k]. -/
def removeKey {α : Type} (k : String) : List (String × α) → List (String × α)
  | [] => []
  | p :: rest => if p.1 = k then removeKey k rest else p :: removeKey k rest

/-- The keys of a map, in order. -/
def keysOf {α : Type} (l : List (String × α)) : List String := l.map Prod.fst

/-- The process environment: variable names with their values. -/
def EnvList : Type := List (String × String)

/-- Python os.getenv(k, d): the default applies only when the variable is
absent, never when it is set to the empty string. -/
def getenvD (env : EnvList) (k d : String) : String := (lookupKey k env).getD d

/-! The environment-sourced model discovery scan
(ModelService._load_runtime_models). -/

/-- The id segment extracted by the scan from an environment-variable name:
the name must start with EVAL_HUB_MODEL_, end with _URL, and have a non-empty
middle (Python re.match of EVAL_HUB_MODEL_(.+)_URL with a greedy group, after
the startswith/endswith guard). -/
def extractModelSeg (n : String) : Option String :=
  if strStartsWith n "EVAL_HUB_MODEL_" && strEndsWith n "_URL" && decide (19 < strLen n)
  then some (strDropRight (strDrop n 15) 4)
  else none

/-- The runtime Model built for one discovered candidate: seg is the id
segment in its original case, trimmedUrl the stripped URL value.  Sibling
NAME/TYPE/PATH variables are read from the same environment with the
documented defaults; the credential flag defaults to true and the entry is
tagged as runtime. -/
def buildRuntimeModel (env : EnvList) (now : Nat) (seg trimmedUrl : String) : Model :=
  let modelId := strToLower seg
  let modelName := getenvD env ("EVAL_HUB_MODEL_" ++ seg ++ "_NAME")
      ("Runtime Model " ++ strToUpper modelId)
  let typeStr := getenvD env ("EVAL_HUB_MODEL_" ++ seg ++ "_TYPE") "openai-compatible"
  let mType := (ModelType.ofString (strToLower typeStr)).getD ModelType.openai_compatible
  { model_id := modelId
    model_name := modelName
    description := "Runtime-specified model: " ++ modelName
    model_type := mType
    base_url := trimmedUrl
    api_key_required := true
    model_path := lookupKey ("EVAL_HUB_MODEL_" ++ seg ++ "_PATH") env
    capabilities := {}
    config := {}
    status := ModelStatus.active
    tags := ["runtime"]
    created_at := now
    updated_at := now }

/-- The scan loop over the environment items: a candidate whose name does not
match the pattern is ignored; a matching candidate whose stripped URL value is
empty is skipped with a warning; otherwise the built model is stored under the
lowercased id (later duplicates overwrite earlier ones, as in the Python
dict). -/
def load_runtime_aux (env : EnvList) (now : Nat) :
    List (String × String) → List (String × Model) → List (String × Model)
  | [], acc => acc
  | p :: rest, acc =>
    load_runtime_aux env now rest
      (match extractModelSeg p.1 with
       | none => acc
       | some seg =>
         if strTrim p.2 = "" then acc
         else insertReplace (strToLower seg) (buildRuntimeModel env now seg (strTrim p.2)) acc)

/-- ModelService._load_runtime_models: build the environment-sourced map from
the current environment snapshot. -/
def load_runtime_models (env : EnvList) (now : Nat) : List (String × Model) :=
  load_runtime_aux env now env []

/-! The service state and its operations. -/

/-- The mutable state of a ModelService: the registered (mutable) map, the
runtime (environment-sourced) map, and the lazy-initialization flag. -/
structure ServiceState where
  registered : List (String × Model)
  runtime : List (String × Model)
  initialized : Bool
deriving DecidableEq

/-- The state of a freshly constructed ModelService. -/
def initial_state : ServiceState := ⟨[], [], false⟩

/-- ModelService._initialize: on the first call, load the runtime models from
the environment and set the flag; idempotent afterwards. -/
def init_service (env : EnvList) (now : Nat) (s : ServiceState) : ServiceState :=
  if s.initialized then s
  else { s with runtime := load_runtime_models env now, initialized := true }

/-- The model built by ModelService.register_model from a request, with both
timestamps set to the current time and absent capability/config bags replaced
by empty defaults. -/
def regModelOf (req : ModelRegistrationRequest) (now : Nat) : Model :=
  { model_id := req.model_id
    model_name := req.model_name
    description := req.description
    model_type := req.model_type
    base_url := req.base_url
    api_key_required := req.api_key_required
    model_path := req.model_path
    capabilities := req.capabilities.getD {}
    config := req.config.getD {}
    status := req.status
    tags := req.tags
    created_at := now
    updated_at := now }

/-- ModelService.register_model: after lazy initialization, reject an
identifier already present in either map with a ValueError, otherwise insert a
new model with both timestamps set to now and return it. -/
def register_model (env : EnvList) (now : Nat) (req : ModelRegistrationRequest)
    (s : ServiceState) : Except String Model × ServiceState :=
  let s := init_service env now s
  if (lookupKey req.model_id s.registered).isSome then
    (Except.error ("Model with ID '" ++ req.model_id ++ "' already exists"), s)
  else if (lookupKey req.model_id s.runtime).isSome then
    (Except.error ("Model with ID '" ++ req.model_id ++
      "' is specified as runtime model via environment variable"), s)
  else
    (Except.ok (regModelOf req now),
     { s with registered := insertReplace req.model_id (regModelOf req now) s.registered })

/-- The field-by-field application of a partial update to a stored model:
each field present in the request overwrites the stored one, each absent field
is left untouched, and the update timestamp is set to now. -/
def applyUpdate (r : ModelUpdateRequest) (m : Model) (now : Nat) : Model :=
  { model_id := m.model_id
    model_name := r.model_name.getD m.model_name
    description := r.description.getD m.description
    model_type := r.model_type.getD m.model_type
    base_url := r.base_url.getD m.base_url
    api_key_required := r.api_key_required.getD m.api_key_required
    model_path := match r.model_path with | some p => some p | none => m.model_path
    capabilities := r.capabilities.getD m.capabilities
    config := r.config.getD m.config
    status := r.status.getD m.status
    tags := r.tags.getD m.tags
    created_at := m.created_at
    updated_at := now }

/-- ModelService.update_model: a runtime identifier is protected (ValueError);
an identifier absent from the mutable map yields none without error; otherwise
the partial update is applied and the updated model returned. -/
def update_model (env : EnvList) (now : Nat) (id : String) (r : ModelUpdateRequest)
    (s : ServiceState) : Except String (Option Model) × ServiceState :=
  let s := init_service env now s
  if (lookupKey id s.runtime).isSome then
    (Except.error "Cannot update runtime models specified via environment variables", s)
  else
    match lookupKey id s.registered with
    | none => (Except.ok none, s)
    | some m =>
      let m' := applyUpdate r m now
      (Except.ok (some m'), { s with registered := insertReplace id m' s.registered })

/-- ModelService.delete_model: a runtime identifier is protected (ValueError);
otherwise the mutable entry is removed when present and the boolean tells
whether one was removed. -/
def delete_model (env : EnvList) (now : Nat) (id : String)
    (s : ServiceState) : Except String Bool × ServiceState :=
  let s := init_service env now s
  if (lookupKey id s.runtime).isSome then
    (Except.error "Cannot delete runtime models specified via environment variables", s)
  else if (lookupKey id s.registered).isSome then
    (Except.ok true, { s with registered := removeKey id s.registered })
  else
    (Except.ok false, s)

/-- ModelService.get_model_by_id: the mutable map is consulted first, then the
runtime map. -/
def get_model_by_id (env : EnvList) (now : Nat) (id : String)
    (s : ServiceState) : Option Model × ServiceState :=
  let s := init_service env now s
  (match lookupKey id s.registered with
   | some m => some m
   | none => lookupKey id s.runtime, s)

/-- The summary projection used by ModelService.get_all_models. -/
def toSummary (m : Model) : ModelSummary :=
  { model_id := m.model_id
    model_name := m.model_name
    description := m.description
    model_type := m.model_type
    base_url := m.base_url
    status := m.status
    tags := m.tags
    created_at := m.created_at }

/-- ModelService.get_all_models: summaries of the mutable entries (filtered to
active ones unless include_inactive) followed by summaries of every runtime
entry, with the total count and the runtime subset reported separately. -/
def get_all_models (env : EnvList) (now : Nat) (include_inactive : Bool)
    (s : ServiceState) : ListModelsResponse × ServiceState :=
  let s := init_service env now s
  let registeredSummaries :=
    ((s.registered.filter
        (fun p => include_inactive || decide (p.2.status = ModelStatus.active))).map
      (fun p => toSummary p.2))
  let runtimeSummaries := s.runtime.map (fun p => toSummary p.2)
  let allSummaries := registeredSummaries ++ runtimeSummaries
  ({ models := allSummaries
     total_models := allSummaries.length
     runtime_models := runtimeSummaries }, s)

/-- ModelService.reload_runtime_models: clear the runtime map and rebuild it
from the current environment snapshot; the mutable map and the flag are not
touched. -/
def reload_runtime_models (env : EnvList) (now : Nat) (s : ServiceState) : ServiceState :=
  { s with runtime := load_runtime_models env now }

/-! Operation sequences, for reachability statements. -/

/-- One mutating operation of the service, with the clock value at which it
runs. -/
inductive SvcOp where
  | reg (now : Nat) (req : ModelRegistrationRequest)
  | upd (now : Nat) (id : String) (r : ModelUpdateRequest)
  | del (now : Nat) (id : String)
  | reload (now : Nat)
  | init (now : Nat)
deriving DecidableEq

/-- Apply one operation against a given environment snapshot, keeping only the
state (results are discarded). -/
def applySvcOp (env : EnvList) (s : ServiceState) : SvcOp → ServiceState
  | SvcOp.reg now req => (register_model env now req s).2
  | SvcOp.upd now id r => (update_model env now id r s).2
  | SvcOp.del now id => (delete_model env now id s).2
  | SvcOp.reload now => reload_runtime_models env now s
  | SvcOp.init now => init_service env now s

/-- Run a sequence of operations, each against its own environment snapshot
(the process environment may change between operations). -/
def runSvcMulti (s : ServiceState) : List (EnvList × SvcOp) → ServiceState
  | [] => s
  | p :: rest => runSvcMulti (applySvcOp p.1 s p.2) rest

/-- Run a sequence of operations against one fixed environment snapshot. -/
def runSvcFixed (env : EnvList) (s : ServiceState) : List SvcOp → ServiceState
  | [] => s
  | op :: rest => runSvcFixed env (applySvcOp env s op) rest

/-! Lemmas about the dictionary operations. -/

theorem keysOf_nil {α : Type} : keysOf ([] : List (String × α)) = [] := rfl

theorem keysOf_cons {α : Type} (p : String × α) (l : List (String × α)) :
    keysOf (p :: l) = p.1 :: keysOf l := rfl

theorem lookupKey_insertReplace {α : Type} (k k' : String) (v : α) (l : List (String × α)) :
    lookupKey k' (insertReplace k v l) = if k = k' then some v else lookupKey k' l := by
  induction l with
  | nil => rfl
  | cons p rest ih =>
    by_cases hp : p.1 = k
    · by_cases hk : k = k'
      · simp [insertReplace, lookupKey, hp, hk]
      · have h1 : ¬ p.1 = k' := fun h => hk (hp ▸ h)
        have h2 : ¬ k' = k := fun h => hk h.symm
        simp [insertReplace, lookupKey, hp, hk, h1, h2]
    · by_cases hp' : p.1 = k'
      · have hk : ¬ k = k' := fun h => hp (h ▸ hp')
        have h2 : ¬ k' = k := fun h => hk h.symm
        simp [insertReplace, lookupKey, hp, hp', hk, h2]
      · simp [insertReplace, lookupKey, hp, hp', ih]

theorem lookupKey_removeKey {α : Type} (k k' : String) (l : List (String × α)) :
    lookupKey k' (removeKey k l) = if k = k' then none else lookupKey k' l := by
  induction l with
  | nil => simp [removeKey, lookupKey]
  | cons p rest ih =>
    by_cases hp : p.1 = k
    · by_cases hk : k = k'
      · simp only [removeKey, if_pos hp, ih, if_pos hk]
      · have h1 : ¬ p.1 = k' := fun h => hk (hp ▸ h)
        simp only [removeKey, if_pos hp, ih, if_neg hk, lookupKey, if_neg h1]
    · by_cases hp' : p.1 = k'
      · have hk : ¬ k = k' := fun h => hp (h ▸ hp')
        simp only [removeKey, if_neg hp, lookupKey, if_pos hp', if_neg hk]
      · simp only [removeKey, if_neg hp, lookupKey, if_neg hp', ih]

theorem mem_keysOf_of_lookupKey {α : Type} {k : String} {v : α} {l : List (String × α)}
    (h : lookupKey k l = some v) : k ∈ keysOf l := by
  induction l with
  | nil => simp [lookupKey] at h
  | cons p rest ih =>
    rw [keysOf_cons]
    by_cases hp : p.1 = k
    · rw [hp]; exact List.mem_cons_self _ _
    · simp only [lookupKey, if_neg hp] at h
      exact List.mem_cons_of_mem _ (ih h)

theorem lookupKey_eq_none_of_not_mem {α : Type} {k : String} {l : List (String × α)}
    (h : k ∉ keysOf l) : lookupKey k l = none := by
  induction l with
  | nil => rfl
  | cons p rest ih =>
    have h1 : ¬ p.1 = k := by
      intro hc
      exact h (by rw [keysOf_cons, hc]; exact List.mem_cons_self _ _)
    have h2 : k ∉ keysOf rest := by
      intro hc
      exact h (by rw [keysOf_cons]; exact List.mem_cons_of_mem _ hc)
    simp [lookupKey, h1, ih h2]

theorem mem_keysOf_of_lookupKey_isSome {α : Type} {k : String} {l : List (String × α)}
    (h : (lookupKey k l).isSome = true) : k ∈ keysOf l := by
  cases hl : lookupKey k l with
  | none => rw [hl] at h; simp at h
  | some v => exact mem_keysOf_of_lookupKey hl

theorem not_mem_keysOf_of_lookupKey_eq_none {α : Type} {k : String} {l : List (String × α)}
    (h : lookupKey k l = none) : k ∉ keysOf l := by
  intro hmem
  induction l with
  | nil => simp [keysOf] at hmem
  | cons p rest ih =>
    simp [keysOf] at hmem
    by_cases hp : p.1 = k
    · simp [lookupKey, hp] at h
    · simp only [lookupKey, hp, if_neg] at h
      rcases hmem with hmem | hmem
      · exact hp hmem.symm
      · exact ih h (by simpa [keysOf] using hmem)

/-- Insertion of a key into a key list, mirroring the effect of insertReplace
on the keys. -/
def insertKey (k : String) (ks : List String) : List String :=
  if k ∈ ks then ks else ks ++ [k]

theorem keysOf_insertReplace {α : Type} (k : String) (v : α) (l : List (String × α)) :
    keysOf (insertReplace k v l) = insertKey k (keysOf l) := by
  induction l with
  | nil => rfl
  | cons p rest ih =>
    by_cases hp : p.1 = k
    · simp only [insertReplace, if_pos hp, keysOf_cons, insertKey]
      rw [if_pos (by rw [hp]; exact List.mem_cons_self _ _), hp]
    · simp only [insertReplace, if_neg hp, keysOf_cons, ih, insertKey]
      by_cases hmem : k ∈ keysOf rest
      · rw [if_pos hmem, if_pos (List.mem_cons_of_mem _ hmem)]
      · have h1 : k ∉ p.1 :: keysOf rest := by
          intro hc
          rcases List.mem_cons.mp hc with hc | hc
          · exact hp hc.symm
          · exact hmem hc
        rw [if_neg hmem, if_neg h1, List.cons_append]

theorem mem_insertKey {a k : String} {ks : List String} :
    a ∈ insertKey k ks ↔ a = k ∨ a ∈ ks := by
  by_cases h : k ∈ ks
  · simp only [insertKey, if_pos h]
    constructor
    · exact Or.inr
    · rintro (rfl | ha)
      · exact h
      · exact ha
  · simp only [insertKey, if_neg h, List.mem_append, List.mem_singleton, or_comm]

theorem mem_keysOf_removeKey {α : Type} {a k : String} {l : List (String × α)}
    (h : a ∈ keysOf (removeKey k l)) : a ∈ keysOf l := by
  induction l with
  | nil => simpa [removeKey] using h
  | cons p rest ih =>
    rw [keysOf_cons]
    by_cases hp : p.1 = k
    · simp only [removeKey, if_pos hp] at h
      exact List.mem_cons_of_mem _ (ih h)
    · simp only [removeKey, if_neg hp, keysOf_cons] at h
      rcases List.mem_cons.mp h with h | h
      · exact List.mem_cons.mpr (Or.inl h)
      · exact List.mem_cons_of_mem _ (ih h)

/-! The key set produced by the discovery scan depends only on the environment
snapshot, not on the clock. -/

/-- The keys accumulated by the scan loop. -/
def runtime_keys_aux : List (String × String) → List String → List String
  | [], ks => ks
  | p :: rest, ks =>
    runtime_keys_aux rest
      (match extractModelSeg p.1 with
       | none => ks
       | some seg => if strTrim p.2 = "" then ks else insertKey (strToLower seg) ks)

/-- The identifiers the discovery scan derives from an environment snapshot. -/
def runtime_keys (env : EnvList) : List String := runtime_keys_aux env []

theorem keysOf_load_runtime_aux (env : EnvList) (now : Nat)
    (work : List (String × String)) (acc : List (String × Model)) :
    keysOf (load_runtime_aux env now work acc) = runtime_keys_aux work (keysOf acc) := by
  induction work generalizing acc with
  | nil => rfl
  | cons p rest ih =>
    simp only [load_runtime_aux, runtime_keys_aux]
    cases h : extractModelSeg p.1 with
    | none => simp [ih]
    | some seg =>
      by_cases ht : strTrim p.2 = ""
      · simp [ht, ih]
      · simp [ht, ih, keysOf_insertReplace]

theorem keysOf_load_runtime_models (env : EnvList) (now : Nat) :
    keysOf (load_runtime_models env now) = runtime_keys env :=
  keysOf_load_runtime_aux env now env []

theorem init_service_of_initialized {env : EnvList} {now : Nat} {s : ServiceState}
    (h : s.initialized = true) : init_service env now s = s := by
  simp [init_service, h]

/-! The reachability invariant of the two registries under one fixed
environment snapshot. -/

/-- Invariant tying a service state to the environment it runs against: no
registered identifier is one the discovery scan would produce, the runtime map
is either still empty or exactly the scanned one, and once the service is
initialized the runtime map is exactly the scanned one. -/
def RegInvariant (env : EnvList) (s : ServiceState) : Prop :=
  (∀ k, k ∈ keysOf s.registered → k ∉ runtime_keys env) ∧
  (s.runtime = [] ∨ keysOf s.runtime = runtime_keys env) ∧
  (s.initialized = true → keysOf s.runtime = runtime_keys env)

theorem regInvariant_initial (env : EnvList) : RegInvariant env initial_state := by
  refine ⟨?_, Or.inl rfl, ?_⟩
  · intro k hk
    simp [initial_state, keysOf] at hk
  · intro h
    simp [initial_state] at h

theorem regInvariant_init (env : EnvList) (now : Nat) (s : ServiceState)
    (h : RegInvariant env s) :
    RegInvariant env (init_service env now s) ∧
    keysOf (init_service env now s).runtime = runtime_keys env ∧
    (init_service env now s).registered = s.registered ∧
    (init_service env now s).initialized = true := by
  by_cases hi : s.initialized = true
  · rw [init_service_of_initialized hi]
    exact ⟨h, h.2.2 hi, rfl, hi⟩
  · simp only [init_service, hi, if_false]
    exact ⟨⟨h.1, Or.inr (keysOf_load_runtime_models env now),
      fun _ => keysOf_load_runtime_models env now⟩,
      keysOf_load_runtime_models env now, rfl, rfl⟩

theorem regInvariant_register (env : EnvList) (now : Nat)
    (req : ModelRegistrationRequest) (s : ServiceState) (h : RegInvariant env s) :
    RegInvariant env (register_model env now req s).2 := by
  obtain ⟨ht, hkeys, -, -⟩ := regInvariant_init env now s h
  simp only [register_model]
  cases h1 : (lookupKey req.model_id (init_service env now s).registered).isSome
  · cases h2 : (lookupKey req.model_id (init_service env now s).runtime).isSome
    · simp only [h1, h2, Bool.false_eq_true, if_false]
      have hno : req.model_id ∉ runtime_keys env := by
        rw [← hkeys]
        intro hc
        cases hl : lookupKey req.model_id (init_service env now s).runtime with
        | none => exact not_mem_keysOf_of_lookupKey_eq_none hl hc
        | some v => rw [hl] at h2; simp at h2
      refine ⟨?_, ht.2.1, ht.2.2⟩
      intro k hk
      rw [keysOf_insertReplace] at hk
      rcases mem_insertKey.mp hk with rfl | hk
      · exact hno
      · exact ht.1 k hk
    · simp only [h1, h2, Bool.false_eq_true, if_false, if_true]
      exact ht
  · simp only [h1, if_true]
    exact ht

theorem regInvariant_update (env : EnvList) (now : Nat) (id : String)
    (r : ModelUpdateRequest) (s : ServiceState) (h : RegInvariant env s) :
    RegInvariant env (update_model env now id r s).2 := by
  obtain ⟨ht, -, -, -⟩ := regInvariant_init env now s h
  simp only [update_model]
  cases h1 : (lookupKey id (init_service env now s).runtime).isSome
  · simp only [h1, Bool.false_eq_true, if_false]
    cases h2 : lookupKey id (init_service env now s).registered with
    | none => exact ht
    | some m =>
      have hid : id ∈ keysOf (init_service env now s).registered := mem_keysOf_of_lookupKey h2
      refine ⟨?_, ht.2.1, ht.2.2⟩
      intro k hk
      rw [keysOf_insertReplace] at hk
      rcases mem_insertKey.mp hk with rfl | hk
      · exact ht.1 k hid
      · exact ht.1 k hk
  · simp only [h1, if_true]
    exact ht

theorem regInvariant_delete (env : EnvList) (now : Nat) (id : String)
    (s : ServiceState) (h : RegInvariant env s) :
    RegInvariant env (delete_model env now id s).2 := by
  obtain ⟨ht, -, -, -⟩ := regInvariant_init env now s h
  simp only [delete_model]
  cases h1 : (lookupKey id (init_service env now s).runtime).isSome
  · cases h2 : (lookupKey id (init_service env now s).registered).isSome
    · simp only [h1, h2, Bool.false_eq_true, if_false]
      exact ht
    · simp only [h1, h2, Bool.false_eq_true, if_false, if_true]
      refine ⟨?_, ht.2.1, ht.2.2⟩
      intro k hk
      exact ht.1 k (mem_keysOf_removeKey hk)
  · simp only [h1, if_true]
    exact ht

theorem regInvariant_reload (env : EnvList) (now : Nat) (s : ServiceState)
    (h : RegInvariant env s) :
    RegInvariant env (reload_runtime_models env now s) :=
  ⟨h.1, Or.inr (keysOf_load_runtime_models env now),
    fun _ => keysOf_load_runtime_models env now⟩

theorem regInvariant_applySvcOp (env : EnvList) (s : ServiceState) (op : SvcOp)
    (h : RegInvariant env s) : RegInvariant env (applySvcOp env s op) := by
  cases op with
  | reg now req => exact regInvariant_register env now req s h
  | upd now id r => exact regInvariant_update env now id r s h
  | del now id => exact regInvariant_delete env now id s h
  | reload now => exact regInvariant_reload env now s h
  | init now => exact (regInvariant_init env now s h).1

theorem regInvariant_runSvcFixed (env : EnvList) (ops : List SvcOp) (s : ServiceState)
    (h : RegInvariant env s) : RegInvariant env (runSvcFixed env s ops) := by
  induction ops generalizing s with
  | nil => exact h
  | cons op rest ih => exact ih _ (regInvariant_applySvcOp env s op h)

/-! Concrete fixtures used by counterexamples and witnesses. -/

/-- A registered model stored under the identifier m1. -/
def m1 : Model :=
  { model_id := "m1"
    model_name := "Model One"
    description := "d"
    model_type := ModelType.openai_compatible
    base_url := "http://x"
    api_key_required := true
    model_path := none
    capabilities := {}
    config := {}
    status := ModelStatus.active
    tags := []
    created_at := 1
    updated_at := 1 }

/-- An environment snapshot declaring one runtime model with identifier rt. -/
def rtEnv : EnvList := [("EVAL_HUB_MODEL_RT_URL", "http://rt")]

/-- An initialized service state holding the registered model m1 and the
runtime models scanned from rtEnv. -/
def st0 : ServiceState :=
  { registered := [("m1", m1)]
    runtime := load_runtime_models rtEnv 0
    initialized := true }

/-- A registration request for the identifier x. -/
def reqX : ModelRegistrationRequest :=
  { model_id := "x"
    model_name := "X"
    description := ""
    model_type := ModelType.openai_compatible
    base_url := "http://x"
    api_key_required := true
    model_path := none
    capabilities := none
    config := none
    status := ModelStatus.active
    tags := [] }

/-- An environment snapshot declaring a runtime model with identifier x. -/
def envX : EnvList := [("EVAL_HUB_MODEL_X_URL", "http://u")]

/-- The environment snapshot of the end-to-end scenario: one runtime model
declared through EVAL_HUB_MODEL_GPT4_URL only. -/
def envGpt4 : EnvList := [("EVAL_HUB_MODEL_GPT4_URL", "http://gpt4")]

/-! Claim C1. -/

/-- C1 counterexample: the identifiers of the two registries are not disjoint
at every reachable state.  Registering the identifier x while the environment
does not declare it and then reloading after the environment has gained
EVAL_HUB_MODEL_X_URL leaves x present in both the mutable and the
environment-sourced map, because the reload scan never consults the mutable
map. -/
theorem registries_disjoint_counterexample :
    (lookupKey "x" (runSvcMulti initial_state
        [([], SvcOp.reg 0 reqX), (envX, SvcOp.reload 1)]).registered).isSome = true ∧
    (lookupKey "x" (runSvcMulti initial_state
        [([], SvcOp.reg 0 reqX), (envX, SvcOp.reload 1)]).runtime).isSome = true := by
  constructor <;> decide

/-- C1 (amended): provided every operation of the sequence runs against one
fixed environment snapshot, no model identifier is simultaneously present in
the mutable (registered) map and the environment-sourced (runtime) map at any
reachable state; identifiers are unique within the union of the two
registries. -/
theorem registries_disjoint_fixed_env (env : EnvList) (ops : List SvcOp) (k : String) :
    ((lookupKey k (runSvcFixed env initial_state ops).registered).isSome &&
     (lookupKey k (runSvcFixed env initial_state ops).runtime).isSome) = false := by
  have h := regInvariant_runSvcFixed env ops initial_state (regInvariant_initial env)
  cases h1 : (lookupKey k (runSvcFixed env initial_state ops).registered).isSome
  · simp
  · cases h2 : (lookupKey k (runSvcFixed env initial_state ops).runtime).isSome
    · simp
    · exfalso
      have hk1 := mem_keysOf_of_lookupKey_isSome h1
      have hk2 := mem_keysOf_of_lookupKey_isSome h2
      have hnot := h.1 k hk1
      rcases h.2.1 with he | he
      · rw [he] at hk2
        simp [keysOf] at hk2
      · rw [he] at hk2
        exact hnot hk2

/-! Claim C2. -/

/-- C2: every discovered runtime model carries the lowercased id segment as
identifier, requires a credential by default, is tagged runtime, keeps the
stripped URL, synthesizes its display name when the NAME variable is absent,
defaults its kind to openai-compatible when the TYPE variable is absent or
unrecognized, and has no path when the PATH variable is absent; a candidate
whose URL value is empty after stripping is skipped entirely; and in the
environment holding only EVAL_HUB_MODEL_GPT4_URL set to http://gpt4, looking
up gpt4 after initialization returns exactly such a model. -/
theorem runtime_discovery_defaults :
    (∀ env now seg url,
      (buildRuntimeModel env now seg url).model_id = strToLower seg ∧
      (buildRuntimeModel env now seg url).api_key_required = true ∧
      (buildRuntimeModel env now seg url).tags = ["runtime"] ∧
      (buildRuntimeModel env now seg url).base_url = url ∧
      (buildRuntimeModel env now seg url).status = ModelStatus.active ∧
      (lookupKey ("EVAL_HUB_MODEL_" ++ seg ++ "_NAME") env = none →
        (buildRuntimeModel env now seg url).model_name =
          "Runtime Model " ++ strToUpper (strToLower seg)) ∧
      (lookupKey ("EVAL_HUB_MODEL_" ++ seg ++ "_TYPE") env = none →
        (buildRuntimeModel env now seg url).model_type = ModelType.openai_compatible) ∧
      (∀ t, lookupKey ("EVAL_HUB_MODEL_" ++ seg ++ "_TYPE") env = some t →
        ModelType.ofString (strToLower t) = none →
        (buildRuntimeModel env now seg url).model_type = ModelType.openai_compatible) ∧
      (lookupKey ("EVAL_HUB_MODEL_" ++ seg ++ "_PATH") env = none →
        (buildRuntimeModel env now seg url).model_path = none)) ∧
    (∀ n v now, strTrim v = "" → load_runtime_models [(n, v)] now = []) ∧
    ((get_model_by_id envGpt4 7 "gpt4" initial_state).1 = some
      { model_id := "gpt4"
        model_name := "Runtime Model GPT4"
        description := "Runtime-specified model: Runtime Model GPT4"
        model_type := ModelType.openai_compatible
        base_url := "http://gpt4"
        api_key_required := true
        model_path := none
        capabilities := {}
        config := {}
        status := ModelStatus.active
        tags := ["runtime"]
        created_at := 7
        updated_at := 7 }) := by
  refine ⟨?_, ?_, by decide⟩
  · intro env now seg url
    refine ⟨rfl, rfl, rfl, rfl, rfl, ?_, ?_, ?_, ?_⟩
    · intro h
      simp [buildRuntimeModel, getenvD, h]
    · intro h
      have hlow : strToLower "openai-compatible" = "openai-compatible" := by decide
      simp [buildRuntimeModel, getenvD, h, hlow, ModelType.ofString]
    · intro t ht hparse
      simp [buildRuntimeModel, getenvD, ht, hparse]
    · intro h
      simp [buildRuntimeModel, h]
  · intro n v now htrim
    cases h : extractModelSeg n with
    | none => simp [load_runtime_models, load_runtime_aux, h]
    | some seg => simp [load_runtime_models, load_runtime_aux, h, htrim]

/-- C2 witness: the general conjuncts evaluated at the gpt4 environment and at
a blank URL value. -/
theorem runtime_discovery_defaults_witness :
    (buildRuntimeModel envGpt4 7 "GPT4" "http://gpt4").model_name =
      "Runtime Model " ++ strToUpper (strToLower "GPT4") ∧
    (buildRuntimeModel envGpt4 7 "GPT4" "http://gpt4").model_path = none ∧
    load_runtime_models [("EVAL_HUB_MODEL_X_URL", "  ")] 3 = [] :=
  ⟨(runtime_discovery_defaults.1 envGpt4 7 "GPT4" "http://gpt4").2.2.2.2.2.1 (by decide),
   (runtime_discovery_defaults.1 envGpt4 7 "GPT4" "http://gpt4").2.2.2.2.2.2.2.2 (by decide),
   runtime_discovery_defaults.2.1 "EVAL_HUB_MODEL_X_URL" "  " 3 (by decide)⟩

/-! Claim C4. -/

/-- C4: reload replaces the whole environment-sourced map with one built
solely from the current environment snapshot — an identifier the current scan
does not produce is absent afterwards, whatever the previous snapshot held —
and leaves the mutable map and the initialization flag unchanged. -/
theorem reload_replaces_wholesale (s : ServiceState) (env1 : EnvList) (now1 : Nat)
    (env2 : EnvList) (now2 : Nat) :
    (reload_runtime_models env2 now2 (reload_runtime_models env1 now1 s)).runtime =
      load_runtime_models env2 now2 ∧
    (reload_runtime_models env2 now2 (reload_runtime_models env1 now1 s)).registered =
      s.registered ∧
    (reload_runtime_models env2 now2 (reload_runtime_models env1 now1 s)).initialized =
      s.initialized ∧
    (∀ k, lookupKey k (load_runtime_models env2 now2) = none →
      lookupKey k (reload_runtime_models env2 now2
        (reload_runtime_models env1 now1 s)).runtime = none) := by
  refine ⟨rfl, rfl, rfl, ?_⟩
  intro k h
  simpa [reload_runtime_models] using h

/-- C4 witness: after reloading under the gpt4 environment and then under an
empty environment, the identifier gpt4 is gone and the mutable map survived. -/
theorem reload_replaces_wholesale_witness :
    lookupKey "gpt4" (reload_runtime_models [] 2
      (reload_runtime_models envGpt4 1 st0)).runtime = none ∧
    (reload_runtime_models [] 2 (reload_runtime_models envGpt4 1 st0)).registered =
      st0.registered :=
  ⟨(reload_replaces_wholesale st0 envGpt4 1 [] 2).2.2.2 "gpt4" (by decide),
   (reload_replaces_wholesale st0 envGpt4 1 [] 2).2.1⟩

/-! Claim C10. -/

theorem load_runtime_aux_status (env : EnvList) (now : Nat)
    (work : List (String × String)) (acc : List (String × Model))
    (hacc : ∀ k m, lookupKey k acc = some m →
      m.status = ModelStatus.active ∧ m.tags = ["runtime"]) :
    ∀ k m, lookupKey k (load_runtime_aux env now work acc) = some m →
      m.status = ModelStatus.active ∧ m.tags = ["runtime"] := by
  induction work generalizing acc with
  | nil => exact hacc
  | cons p rest ih =>
    simp only [load_runtime_aux]
    cases h : extractModelSeg p.1 with
    | none => exact ih acc hacc
    | some seg =>
      by_cases ht : strTrim p.2 = ""
      · simp only [ht, if_true]
        exact ih acc hacc
      · simp only [ht, if_false]
        refine ih _ ?_
        intro k m hk
        rw [lookupKey_insertReplace] at hk
        by_cases hcase : strToLower seg = k
        · rw [if_pos hcase] at hk
          cases hk
          exact ⟨rfl, rfl⟩
        · rw [if_neg hcase] at hk
          exact hacc k m hk

/-- C10: every model the discovery scan places in the environment-sourced map
— at initialization as well as at reload — has lifecycle status active and tag
list exactly the singleton runtime; hence the environment-sourced map never
contains an inactive entry. -/
theorem runtime_entries_active_and_tagged (env : EnvList) (now : Nat)
    (s : ServiceState) (k : String) (m : Model) :
    (lookupKey k (load_runtime_models env now) = some m →
      m.status = ModelStatus.active ∧ m.tags = ["runtime"]) ∧
    (lookupKey k (reload_runtime_models env now s).runtime = some m →
      m.status = ModelStatus.active ∧ m.tags = ["runtime"]) ∧
    (lookupKey k (init_service env now initial_state).runtime = some m →
      m.status = ModelStatus.active ∧ m.tags = ["runtime"]) := by
  have hmain : ∀ k m, lookupKey k (load_runtime_models env now) = some m →
      m.status = ModelStatus.active ∧ m.tags = ["runtime"] := by
    apply load_runtime_aux_status
    intro k m hk
    simp [lookupKey] at hk
  exact ⟨hmain k m, fun h => hmain k m (by simpa [reload_runtime_models] using h),
    fun h => hmain k m (by simpa [init_service, initial_state] using h)⟩

/-- C10 witness: the runtime model scanned from the gpt4 environment is active
and tagged runtime. -/
theorem runtime_entries_active_and_tagged_witness :
    (buildRuntimeModel envGpt4 7 "GPT4" "http://gpt4").status = ModelStatus.active ∧
    (buildRuntimeModel envGpt4 7 "GPT4" "http://gpt4").tags = ["runtime"] :=
  (runtime_entries_active_and_tagged envGpt4 7 initial_state "gpt4"
    (buildRuntimeModel envGpt4 7 "GPT4" "http://gpt4")).1 (by decide)

/-! Claim C3. -/

/-- C3: on a model present in the mutable registry, an update changes exactly
the fields supplied in the request — every omitted field keeps its prior value
— bumps the update timestamp to the (strictly later) current time, stores the
updated model under the same identifier, and touches no other entry and not
the runtime map. -/
theorem update_changes_exactly_supplied_fields
    (env : EnvList) (now : Nat) (id : String) (r : ModelUpdateRequest)
    (s : ServiceState) (m : Model)
    (hinit : s.initialized = true)
    (hrt : lookupKey id s.runtime = none)
    (hreg : lookupKey id s.registered = some m)
    (hclock : m.updated_at < now) :
    ∃ m',
      (update_model env now id r s).1 = Except.ok (some m') ∧
      lookupKey id (update_model env now id r s).2.registered = some m' ∧
      (∀ k, k ≠ id →
        lookupKey k (update_model env now id r s).2.registered = lookupKey k s.registered) ∧
      (update_model env now id r s).2.runtime = s.runtime ∧
      m'.model_id = m.model_id ∧
      m'.created_at = m.created_at ∧
      m.updated_at < m'.updated_at ∧
      (r.model_name = none → m'.model_name = m.model_name) ∧
      (∀ v, r.model_name = some v → m'.model_name = v) ∧
      (r.description = none → m'.description = m.description) ∧
      (∀ v, r.description = some v → m'.description = v) ∧
      (r.model_type = none → m'.model_type = m.model_type) ∧
      (∀ v, r.model_type = some v → m'.model_type = v) ∧
      (r.base_url = none → m'.base_url = m.base_url) ∧
      (∀ v, r.base_url = some v → m'.base_url = v) ∧
      (r.api_key_required = none → m'.api_key_required = m.api_key_required) ∧
      (∀ v, r.api_key_required = some v → m'.api_key_required = v) ∧
      (r.model_path = none → m'.model_path = m.model_path) ∧
      (∀ v, r.model_path = some v → m'.model_path = some v) ∧
      (r.capabilities = none → m'.capabilities = m.capabilities) ∧
      (∀ v, r.capabilities = some v → m'.capabilities = v) ∧
      (r.config = none → m'.config = m.config) ∧
      (∀ v, r.config = some v → m'.config = v) ∧
      (r.status = none → m'.status = m.status) ∧
      (∀ v, r.status = some v → m'.status = v) ∧
      (r.tags = none → m'.tags = m.tags) ∧
      (∀ v, r.tags = some v → m'.tags = v) := by
  have hs : init_service env now s = s := init_service_of_initialized hinit
  have hupd : update_model env now id r s =
      (Except.ok (some (applyUpdate r m now)),
       { s with registered := insertReplace id (applyUpdate r m now) s.registered }) := by
    simp [update_model, hs, hrt, hreg]
  refine ⟨applyUpdate r m now, by rw [hupd], ?_, ?_, by rw [hupd], rfl, rfl, hclock,
    ?_, ?_, ?_, ?_, ?_, ?_, ?_, ?_, ?_, ?_, ?_, ?_, ?_, ?_, ?_, ?_, ?_, ?_, ?_, ?_⟩
  · rw [hupd]
    show lookupKey id (insertReplace id (applyUpdate r m now) s.registered) =
      some (applyUpdate r m now)
    rw [lookupKey_insertReplace, if_pos rfl]
  · intro k hk
    rw [hupd]
    show lookupKey k (insertReplace id (applyUpdate r m now) s.registered) =
      lookupKey k s.registered
    rw [lookupKey_insertReplace, if_neg fun h => hk h.symm]
  · intro h; simp [applyUpdate, h]
  · intro v h; simp [applyUpdate, h]
  · intro h; simp [applyUpdate, h]
  · intro v h; simp [applyUpdate, h]
  · intro h; simp [applyUpdate, h]
  · intro v h; simp [applyUpdate, h]
  · intro h; simp [applyUpdate, h]
  · intro v h; simp [applyUpdate, h]
  · intro h; simp [applyUpdate, h]
  · intro v h; simp [applyUpdate, h]
  · intro h; simp [applyUpdate, h]
  · intro v h; simp [applyUpdate, h]
  · intro h; simp [applyUpdate, h]
  · intro v h; simp [applyUpdate, h]
  · intro h; simp [applyUpdate, h]
  · intro v h; simp [applyUpdate, h]
  · intro h; simp [applyUpdate, h]
  · intro v h; simp [applyUpdate, h]
  · intro h; simp [applyUpdate, h]
  · intro v h; simp [applyUpdate, h]

/-- C3 witness: updating m1 with only a new display name at a later clock value
keeps the description and strictly bumps the update timestamp. -/
theorem update_changes_exactly_supplied_fields_witness :
    ∃ m', (update_model rtEnv 5 "m1" { model_name := some "New" } st0).1 =
        Except.ok (some m') ∧
      m'.model_name = "New" ∧
      m'.description = m1.description ∧
      m1.updated_at < m'.updated_at := by
  obtain ⟨m', hres, -, -, -, -, -, hlt, -, hnameS, hdescN, -, rest⟩ :=
    update_changes_exactly_supplied_fields rtEnv 5 "m1" { model_name := some "New" }
      st0 m1 rfl (by decide) (by decide) (by decide)
  exact ⟨m', hres, hnameS "New" rfl, hdescN rfl, hlt⟩

/-! Claim C5. -/

/-- C5: an identifier present in the environment-sourced registry is
protected: registering it fails with the runtime-conflict error, updating it
fails with the protection error (not an absence result), deleting it fails
with the protection error, and in each case the service state — both
registries — is left exactly unchanged. -/
theorem runtime_models_protected (env : EnvList) (now : Nat) (id : String)
    (req : ModelRegistrationRequest) (r : ModelUpdateRequest)
    (s : ServiceState) (m : Model)
    (hinit : s.initialized = true)
    (hrt : lookupKey id s.runtime = some m)
    (hreg : lookupKey id s.registered = none)
    (hid : req.model_id = id) :
    register_model env now req s =
      (Except.error ("Model with ID '" ++ id ++
        "' is specified as runtime model via environment variable"), s) ∧
    update_model env now id r s =
      (Except.error "Cannot update runtime models specified via environment variables", s) ∧
    delete_model env now id s =
      (Except.error "Cannot delete runtime models specified via environment variables", s) := by
  have hs : init_service env now s = s := init_service_of_initialized hinit
  subst hid
  refine ⟨?_, ?_, ?_⟩
  · simp [register_model, hs, hrt, hreg]
  · simp [update_model, hs, hrt]
  · simp [delete_model, hs, hrt]

/-- A registration request colliding with the runtime identifier rt. -/
def reqRT : ModelRegistrationRequest :=
  { model_id := "rt"
    model_name := "RT clone"
    description := ""
    model_type := ModelType.openai_compatible
    base_url := "http://clone"
    api_key_required := false
    model_path := none
    capabilities := none
    config := none
    status := ModelStatus.active
    tags := [] }

/-- C5 witness: the three protected operations evaluated on the runtime
identifier rt of the fixture state. -/
theorem runtime_models_protected_witness :
    register_model rtEnv 9 reqRT st0 =
      (Except.error ("Model with ID '" ++ "rt" ++
        "' is specified as runtime model via environment variable"), st0) ∧
    update_model rtEnv 9 "rt" {} st0 =
      (Except.error "Cannot update runtime models specified via environment variables", st0) ∧
    delete_model rtEnv 9 "rt" st0 =
      (Except.error "Cannot delete runtime models specified via environment variables", st0) :=
  runtime_models_protected rtEnv 9 "rt" reqRT {} st0
    (buildRuntimeModel rtEnv 0 "RT" "http://rt") rfl (by decide) (by decide) rfl

/-! Claim C6. -/

/-- C6: register fails with a conflict error whenever the identifier is in
either registry and otherwise stores, under that identifier, a new model whose
creation and update timestamps are both the current time, returning exactly
the stored model and leaving the runtime map alone; update on an identifier in
neither registry returns an absence result without error and without changing
the state; delete returns true exactly when a mutable entry was present (and
then removes exactly that entry) and false otherwise. -/
theorem register_update_delete_contract (env : EnvList) (now : Nat)
    (req : ModelRegistrationRequest) (s : ServiceState)
    (hinit : s.initialized = true) :
    ((lookupKey req.model_id s.registered ≠ none ∨ lookupKey req.model_id s.runtime ≠ none) →
      ∃ e, register_model env now req s = (Except.error e, s)) ∧
    (lookupKey req.model_id s.registered = none → lookupKey req.model_id s.runtime = none →
      ∃ m, (register_model env now req s).1 = Except.ok m ∧
        m.created_at = now ∧ m.updated_at = now ∧ m.model_id = req.model_id ∧
        lookupKey req.model_id (register_model env now req s).2.registered = some m ∧
        (register_model env now req s).2.runtime = s.runtime) ∧
    (∀ id r, lookupKey id s.registered = none → lookupKey id s.runtime = none →
      update_model env now id r s = (Except.ok none, s)) ∧
    (∀ id, lookupKey id s.runtime = none →
      (delete_model env now id s).1 = Except.ok (lookupKey id s.registered).isSome ∧
      lookupKey id (delete_model env now id s).2.registered = none ∧
      (∀ k, k ≠ id →
        lookupKey k (delete_model env now id s).2.registered = lookupKey k s.registered) ∧
      (delete_model env now id s).2.runtime = s.runtime) := by
  have hs : init_service env now s = s := init_service_of_initialized hinit
  refine ⟨?_, ?_, ?_, ?_⟩
  · intro hcol
    rcases hcol with hcol | hcol
    · cases hc : lookupKey req.model_id s.registered with
      | none => exact absurd hc hcol
      | some v =>
        exact ⟨"Model with ID '" ++ req.model_id ++ "' already exists",
          by simp [register_model, hs, hc]⟩
    · cases hc : lookupKey req.model_id s.runtime with
      | none => exact absurd hc hcol
      | some v =>
        cases hc2 : lookupKey req.model_id s.registered with
        | none =>
          exact ⟨"Model with ID '" ++ req.model_id ++
            "' is specified as runtime model via environment variable",
            by simp [register_model, hs, hc, hc2]⟩
        | some w =>
          exact ⟨"Model with ID '" ++ req.model_id ++ "' already exists",
            by simp [register_model, hs, hc2]⟩
  · intro h1 h2
    have hr : register_model env now req s =
        (Except.ok (regModelOf req now),
         { s with
            registered := insertReplace req.model_id (regModelOf req now) s.registered }) := by
      simp [register_model, hs, h1, h2]
    refine ⟨regModelOf req now, by rw [hr], rfl, rfl, rfl, ?_, by rw [hr]⟩
    rw [hr]
    show lookupKey req.model_id
        (insertReplace req.model_id (regModelOf req now) s.registered) =
      some (regModelOf req now)
    rw [lookupKey_insertReplace, if_pos rfl]
  · intro id r h1 h2
    simp [update_model, hs, h1, h2]
  · intro id h2
    cases h1 : lookupKey id s.registered with
    | none =>
      have hd : delete_model env now id s = (Except.ok false, s) := by
        simp [delete_model, hs, h1, h2]
      refine ⟨by simp [hd], by rw [hd]; exact h1, fun k hk => by rw [hd], by rw [hd]⟩
    | some v =>
      have hd : delete_model env now id s =
          (Except.ok true, { s with registered := removeKey id s.registered }) := by
        simp [delete_model, hs, h1, h2]
      refine ⟨by simp [hd], ?_, ?_, by rw [hd]⟩
      · rw [hd]
        show lookupKey id (removeKey id s.registered) = none
        rw [lookupKey_removeKey, if_pos rfl]
      · intro k hk
        rw [hd]
        show lookupKey k (removeKey id s.registered) = lookupKey k s.registered
        rw [lookupKey_removeKey, if_neg fun h => hk h.symm]

/-- A fresh registration request for the identifier m2, colliding with
nothing in the fixture state. -/
def reqM2 : ModelRegistrationRequest :=
  { model_id := "m2"
    model_name := "Model Two"
    description := "d2"
    model_type := ModelType.huggingface
    base_url := "http://m2"
    api_key_required := false
    model_path := some "/models/m2"
    capabilities := none
    config := none
    status := ModelStatus.active
    tags := ["t"] }

/-- C6 witness: registering m2 into the fixture state stores it with both
timestamps set to the clock value; updating an absent identifier yields the
absence result; deleting m1 reports whether it was present. -/
theorem register_update_delete_contract_witness :
    ∃ m, (register_model rtEnv 5 reqM2 st0).1 = Except.ok m ∧
      m.created_at = 5 ∧ m.updated_at = 5 ∧ m.model_id = reqM2.model_id ∧
      lookupKey reqM2.model_id (register_model rtEnv 5 reqM2 st0).2.registered = some m ∧
      (register_model rtEnv 5 reqM2 st0).2.runtime = st0.runtime ∧
      update_model rtEnv 5 "zz" {} st0 = (Except.ok none, st0) ∧
      (delete_model rtEnv 5 "m1" st0).1 = Except.ok (lookupKey "m1" st0.registered).isSome := by
  obtain ⟨hA, hB, hC, hD⟩ := register_update_delete_contract rtEnv 5 reqM2 st0 rfl
  obtain ⟨m, h1, h2, h3, h4, h5, h6⟩ := hB (by decide) (by decide)
  exact ⟨m, h1, h2, h3, h4, h5, h6, hC "zz" {} (by decide) (by decide),
    (hD "m1" (by decide)).1⟩

/-! Claim C7. -/

/-- C7: listing with include_inactive set to false reports a total equal to
the number of returned summaries, includes the summary of every
environment-sourced entry regardless of its status, and returns no mutable
entry whose status is not active — every returned summary is either active or
one of the environment-sourced summaries. -/
theorem list_filters_mutable_only (env : EnvList) (now : Nat) (s : ServiceState)
    (hinit : s.initialized = true) :
    (get_all_models env now false s).1.total_models =
      (get_all_models env now false s).1.models.length ∧
    (∀ p ∈ s.runtime, toSummary p.2 ∈ (get_all_models env now false s).1.models) ∧
    (∀ x ∈ (get_all_models env now false s).1.models,
      x.status = ModelStatus.active ∨ x ∈ s.runtime.map fun p => toSummary p.2) := by
  have hs : init_service env now s = s := init_service_of_initialized hinit
  refine ⟨by simp [get_all_models, hs], ?_, ?_⟩
  · intro p hp
    simp only [get_all_models, hs]
    exact List.mem_append_right _ (List.mem_map_of_mem _ hp)
  · intro x hx
    simp only [get_all_models, hs] at hx
    rcases List.mem_append.mp hx with hx | hx
    · left
      rcases List.mem_map.mp hx with ⟨p, hp, rfl⟩
      have hmem := List.mem_filter.mp hp
      have hst : p.2.status = ModelStatus.active := by
        have h2 := hmem.2
        simp at h2
        exact h2
      simpa [toSummary] using hst
    · right
      exact hx

/-- A registered model stored under the identifier m0 that is inactive. -/
def m0 : Model :=
  { model_id := "m0"
    model_name := "Model Zero"
    description := "old"
    model_type := ModelType.openai_compatible
    base_url := "http://m0"
    api_key_required := true
    model_path := none
    capabilities := {}
    config := {}
    status := ModelStatus.inactive
    tags := []
    created_at := 0
    updated_at := 0 }

/-- An initialized fixture state holding one active and one inactive mutable
entry next to the runtime entries of rtEnv. -/
def st1 : ServiceState :=
  { registered := [("m1", m1), ("m0", m0)]
    runtime := load_runtime_models rtEnv 0
    initialized := true }

/-- C7 witness: the listing contract evaluated on a state holding an inactive
mutable entry and a runtime entry. -/
theorem list_filters_mutable_only_witness :
    (get_all_models rtEnv 3 false st1).1.total_models =
      (get_all_models rtEnv 3 false st1).1.models.length ∧
    (∀ p ∈ st1.runtime, toSummary p.2 ∈ (get_all_models rtEnv 3 false st1).1.models) ∧
    (∀ x ∈ (get_all_models rtEnv 3 false st1).1.models,
      x.status = ModelStatus.active ∨ x ∈ st1.runtime.map fun p => toSummary p.2) :=
  list_filters_mutable_only rtEnv 3 st1 rfl

/-! The backend-executor construction contract.  The executor implementation
(eval_hub/executors/nemo.py) is not among the provided sources — only its unit
tests are — so its construction-time validation is modelled from the spec and
those tests. -/

/-- A value of the free-form backend configuration bag. -/
inductive ConfigVal where
  | str (s : String)
  | flag (b : Bool)
deriving DecidableEq

/-- The container configuration the NeMo executor builds at construction, with
the defaults the unit tests pin down. -/
structure NemoContainerConfig where
  endpoint : String
  port : Nat := 3825
  timeout_seconds : Nat := 3600
  max_retries : Nat := 3
  health_check_endpoint : Option String := none
  auth_token : Option String := none
  verify_ssl : Bool := true
deriving DecidableEq

/-- A constructed NeMo executor: what the claims need of it is its validated
container configuration. -/
structure NemoEvaluatorExecutor where
  container_config : NemoContainerConfig
deriving DecidableEq

/-- Modelled from the spec: construction of the NeMo backend executor
validates its configuration bag eagerly — the executor module is not among
the provided sources, only its unit tests.  A bag without the required
endpoint field fails with a descriptive error naming the field; an endpoint
that is present but not a non-empty string fails with the distinct
must-be-non-empty error; otherwise the executor is produced with the endpoint
and the default container configuration. -/
def mkNemoEvaluatorExecutor (cfg : List (String × ConfigVal)) :
    Except String NemoEvaluatorExecutor :=
  match lookupKey "endpoint" cfg with
  | none => Except.error "NeMo Evaluator configuration missing required field: endpoint"
  | some (ConfigVal.flag _) =>
    Except.error "NeMo Evaluator endpoint must be a non-empty string"
  | some (ConfigVal.str e) =>
    if e = "" then Except.error "NeMo Evaluator endpoint must be a non-empty string"
    else Except.ok { container_config := { endpoint := e } }

/-! Claim C8. -/

/-- C8: constructing a backend executor from a configuration bag missing the
endpoint fails with the error naming that field; constructing it with the
endpoint present but empty fails with the distinct must-be-non-empty error;
the two errors differ; and no executor with an empty endpoint is ever
produced. -/
theorem executor_construction_validates (cfg : List (String × ConfigVal)) :
    (lookupKey "endpoint" cfg = none →
      mkNemoEvaluatorExecutor cfg =
        Except.error "NeMo Evaluator configuration missing required field: endpoint") ∧
    (lookupKey "endpoint" cfg = some (ConfigVal.str "") →
      mkNemoEvaluatorExecutor cfg =
        Except.error "NeMo Evaluator endpoint must be a non-empty string") ∧
    ("NeMo Evaluator configuration missing required field: endpoint" ≠
      "NeMo Evaluator endpoint must be a non-empty string") ∧
    (∀ ex, mkNemoEvaluatorExecutor cfg = Except.ok ex →
      ex.container_config.endpoint ≠ "") := by
  refine ⟨?_, ?_, by decide, ?_⟩
  · intro h
    simp [mkNemoEvaluatorExecutor, h]
  · intro h
    simp [mkNemoEvaluatorExecutor, h]
  · intro ex hex
    cases hl : lookupKey "endpoint" cfg with
    | none => simp [mkNemoEvaluatorExecutor, hl] at hex
    | some v =>
      cases v with
      | flag b => simp [mkNemoEvaluatorExecutor, hl] at hex
      | str e =>
        by_cases he : e = ""
        · simp [mkNemoEvaluatorExecutor, hl, he] at hex
        · simp only [mkNemoEvaluatorExecutor, hl, if_neg he, Except.ok.injEq] at hex
          rw [← hex]
          exact he

/-- C8 witness: the two failing constructions evaluated on concrete bags. -/
theorem executor_construction_validates_witness :
    mkNemoEvaluatorExecutor [("batch_size", ConfigVal.str "1")] =
      Except.error "NeMo Evaluator configuration missing required field: endpoint" ∧
    mkNemoEvaluatorExecutor [("endpoint", ConfigVal.str "")] =
      Except.error "NeMo Evaluator endpoint must be a non-empty string" :=
  ⟨(executor_construction_validates [("batch_size", ConfigVal.str "1")]).1 (by decide),
   (executor_construction_validates [("endpoint", ConfigVal.str "")]).2.1 (by decide)⟩

/-! The progress-callback contract of execute_benchmark. -/

/-- One update delivered to a progress callback: the numeric progress value
and the human-readable message. -/
structure ProgressUpdate where
  progress : Nat
  message : String
deriving DecidableEq

/-- Modelled from the spec: the sequence of progress updates a successful run
of execute_benchmark delivers to a supplied callback when it goes through r
retry announcements before succeeding — the executor module is not among the
provided sources, only its unit tests.  The spec fixes the checkpoints (one on
start, one per retry, one on completion) and requires the numeric values to
increase; the concrete values realize one such increasing scale. -/
def successProgressUpdates (r : Nat) : List ProgressUpdate :=
  { progress := 0, message := "Starting evaluation" } ::
    ((List.range r).map fun i => { progress := i + 1, message := "Retrying evaluation" }) ++
    [{ progress := r + 1, message := "Evaluation completed" }]

theorem successProgressUpdates_progress_eq_range (r : Nat) :
    (successProgressUpdates r).map ProgressUpdate.progress = List.range (r + 2) := by
  have h1 : List.range (r + 2) = List.range (r + 1) ++ [r + 1] := List.range_succ (r + 1)
  have h2 : List.range (r + 1) = 0 :: (List.range r).map Nat.succ := List.range_succ_eq_map r
  rw [h1, h2]
  simp [successProgressUpdates, List.map_map, Function.comp, Nat.succ_eq_add_one]

/-! Claim C9. -/

/-- C9: for a successful run with a progress callback supplied, the numeric
progress values delivered to the callback are strictly increasing from the
first emitted update to the last, the update stream is non-empty, and the
final update is the completion one, carrying the largest value. -/
theorem progress_values_strictly_increasing (r : Nat) :
    List.Pairwise (fun a b => a < b)
      ((successProgressUpdates r).map ProgressUpdate.progress) ∧
    successProgressUpdates r ≠ [] ∧
    (successProgressUpdates r).getLast? =
      some { progress := r + 1, message := "Evaluation completed" } ∧
    (∀ u ∈ successProgressUpdates r, u.progress ≤ r + 1) := by
  refine ⟨?_, by simp [successProgressUpdates], ?_, ?_⟩
  · rw [successProgressUpdates_progress_eq_range]
    exact List.pairwise_lt_range (r + 2)
  · have hsplit : successProgressUpdates r =
        (({ progress := 0, message := "Starting evaluation" } : ProgressUpdate) ::
          (List.range r).map fun i =>
            ({ progress := i + 1, message := "Retrying evaluation" } : ProgressUpdate)) ++
        [{ progress := r + 1, message := "Evaluation completed" }] := by
      simp [successProgressUpdates]
    rw [hsplit]
    exact List.getLast?_concat _
  · intro u hu
    have hmem : u.progress ∈ (successProgressUpdates r).map ProgressUpdate.progress :=
      List.mem_map_of_mem _ hu
    rw [successProgressUpdates_progress_eq_range] at hmem
    have := List.mem_range.mp hmem
    omega

end EvalHub
